import Mathlib

/-!
# Verification of the inVoice command pipeline and invoice state engine

Shallow embedding of the voice-invoice application's core:

* `src/utils/voiceParser.ts` — the bilingual pattern rule table and the
  matcher `parseVoiceCommand` (regular expressions are embedded as an
  explicit backtracking engine whose alternative ordering mirrors
  JavaScript regex semantics: leftmost start position, earlier alternative
  first, greedy quantifiers longest-first, lazy quantifiers shortest-first);
* `src/hooks/useVoiceCommands.ts` — the command-to-action translator
  `commandToAction` and `processTranscript`;
* `src/hooks/useInvoiceState.ts` — the reducer `invoiceReducer`;
* `src/types/invoice.types.ts` — the data model and `initialInvoiceState`.

JavaScript numbers are modelled as `ℚ` (every value manipulated by this
code is a small decimal, exactly representable), `Date` values as integer
epoch milliseconds, and the nondeterministic inputs of the reducer
(`crypto.randomUUID()`, `Date.now()`) as explicit parameters `freshId`
and `now`.
-/

namespace InVoice

/-! ## Data model (`src/types/invoice.types.ts`) -/

/-- A single invoice line item (`InvoiceItem`). -/
structure InvoiceItem where
  id : String
  description : String
  quantity : ℚ
  unitPrice : ℚ
  total : ℚ
deriving DecidableEq, Repr

/-- The invoice aggregate (`InvoiceData`).  `Date` fields are epoch ms. -/
structure InvoiceData where
  invoiceNumber : String
  date : Int
  dueDate : Int
  customerName : String
  customerAddress : String
  items : List InvoiceItem
  subtotal : ℚ
  tax : ℚ
  taxRate : ℚ
  total : ℚ
  notes : String
deriving DecidableEq, Repr

/-- Payload of an `ADD_ITEM` action (`Omit<InvoiceItem, 'id' | 'total'>`). -/
structure AddItemPayload where
  description : String
  quantity : ℚ
  unitPrice : ℚ
deriving DecidableEq, Repr

/-- Payload of a `SET_CUSTOMER` action
(`Pick<InvoiceData, 'customerName' | 'customerAddress'>`). -/
structure CustomerPayload where
  customerName : String
  customerAddress : String
deriving DecidableEq, Repr

/-- Mutation requests: `InvoiceAction` from `invoice.types.ts`. -/
inductive InvoiceAction where
  | ADD_ITEM (payload : AddItemPayload)
  | REMOVE_ITEM (payload : String)
  | UPDATE_ITEM (payload : InvoiceItem)
  | SET_CUSTOMER (payload : CustomerPayload)
  | SET_TAX_RATE (payload : ℚ)
  | SET_INVOICE_NUMBER (payload : String)
  | SET_DATE (payload : Int)
  | SET_DUE_DATE (payload : Int)
  | SET_NOTES (payload : String)
  | RESET_INVOICE
deriving DecidableEq, Repr

/-- The initial aggregate `initialInvoiceState`, parameterised by the module-load time `now`
(`date: new Date()`, `dueDate: new Date(Date.now() + 30*24*60*60*1000)`). -/
def initialInvoiceState (now : Int) : InvoiceData :=
  { invoiceNumber := ""
    date := now
    dueDate := now + 30 * 24 * 60 * 60 * 1000
    customerName := ""
    customerAddress := ""
    items := []
    subtotal := 0
    tax := 0
    taxRate := 0
    total := 0
    notes := "" }

/-! ## Invoice state engine (`src/hooks/useInvoiceState.ts`) -/

/-- Sum of the item totals: `items.reduce((sum, item) => sum + item.total, 0)`. -/
def sumTotals (items : List InvoiceItem) : ℚ :=
  items.foldl (fun sum item => sum + item.total) 0

/-- The reducer `invoiceReducer` from `useInvoiceState.ts`.
`now` is the module-load time baked into `initialInvoiceState` (used by
`RESET_INVOICE`); `freshId` is the `crypto.randomUUID()` value generated
in the `ADD_ITEM` branch. -/
def invoiceReducer (now : Int) (freshId : String)
    (state : InvoiceData) (action : InvoiceAction) : InvoiceData :=
  match action with
  | .ADD_ITEM payload =>
      let newItem : InvoiceItem :=
        { id := freshId
          description := payload.description
          quantity := payload.quantity
          unitPrice := payload.unitPrice
          total := payload.quantity * payload.unitPrice }
      let newItems := state.items ++ [newItem]
      let subtotal := sumTotals newItems
      let tax := subtotal * state.taxRate
      let total := subtotal + tax
      { state with items := newItems, subtotal := subtotal, tax := tax, total := total }
  | .REMOVE_ITEM payload =>
      let newItems := state.items.filter (fun item => item.id != payload)
      let subtotal := sumTotals newItems
      let tax := subtotal * state.taxRate
      let total := subtotal + tax
      { state with items := newItems, subtotal := subtotal, tax := tax, total := total }
  | .UPDATE_ITEM payload =>
      let newItems := state.items.map (fun item =>
        if item.id = payload.id then
          { payload with total := payload.quantity * payload.unitPrice }
        else item)
      let subtotal := sumTotals newItems
      let tax := subtotal * state.taxRate
      let total := subtotal + tax
      { state with items := newItems, subtotal := subtotal, tax := tax, total := total }
  | .SET_CUSTOMER payload =>
      { state with customerName := payload.customerName
                   customerAddress := payload.customerAddress }
  | .SET_TAX_RATE payload =>
      let tax := state.subtotal * payload
      let total := state.subtotal + tax
      { state with taxRate := payload, tax := tax, total := total }
  | .SET_INVOICE_NUMBER payload => { state with invoiceNumber := payload }
  | .SET_DATE payload => { state with date := payload }
  | .SET_DUE_DATE payload => { state with dueDate := payload }
  | .SET_NOTES payload => { state with notes := payload }
  | .RESET_INVOICE => initialInvoiceState now

/-- The arithmetic invariants of the aggregate (spec §3). -/
abbrev InvoiceInvariant (s : InvoiceData) : Prop :=
  s.subtotal = sumTotals s.items ∧
  s.tax = s.subtotal * s.taxRate ∧
  s.total = s.subtotal + s.tax ∧
  ∀ item ∈ s.items, item.total = item.quantity * item.unitPrice

/-! ## A backtracking regular-expression engine

The rule table of `voiceParser.ts` is built from JavaScript regexes.  They
are embedded as an explicit syntax tree matched by a list-of-successes
backtracking engine; the order of the produced list mirrors JavaScript
backtracking priority (earlier alternative first, greedy longest-first,
lazy shortest-first), and `searchRe` mirrors `String.prototype.match`
(leftmost start position wins, first match returned).  Loop constructs
carry fuel for termination; a loop iteration that consumed no input stops
the loop, as in JavaScript.  All loop bodies in the embedded patterns
consume at least one character, so any fuel above the input length makes
the engine's behaviour independent of the fuel. -/

/-- Regular-expression syntax (the fragment used by `commandPatterns`). -/
inductive Re where
  | eps
  | chr (c : Char)
  | cls (p : Char → Bool)
  | seq (a b : Re)
  | alt (a b : Re)
  | grp (n : Nat) (r : Re)
  | opt (r : Re)
  | star (r : Re)
  | plus (r : Re)
  | lazyPlus (r : Re)

/-- Capture environment: group number ↦ captured characters. -/
abbrev Caps := List (Nat × List Char)

/-- Greedy Kleene star of a `body` matcher: continue first, then stop. -/
def starG (body : Caps → List Char → List (Caps × List Char)) :
    Nat → Caps → List Char → List (Caps × List Char)
  | 0, caps, s => [(caps, s)]
  | fuel + 1, caps, s =>
      ((body caps s).filter (fun pr => pr.2.length < s.length)).flatMap
        (fun pr => starG body fuel pr.1 pr.2) ++ [(caps, s)]

/-- Greedy `+` of a `body` matcher: at least one iteration, longest first. -/
def plusG (body : Caps → List Char → List (Caps × List Char)) :
    Nat → Caps → List Char → List (Caps × List Char)
  | 0, _, _ => []
  | fuel + 1, caps, s =>
      ((body caps s).filter (fun pr => pr.2.length < s.length)).flatMap
        (fun pr => plusG body fuel pr.1 pr.2 ++ [pr])

/-- Lazy `+?` of a `body` matcher: at least one iteration, shortest first. -/
def lazyPlusG (body : Caps → List Char → List (Caps × List Char)) :
    Nat → Caps → List Char → List (Caps × List Char)
  | 0, _, _ => []
  | fuel + 1, caps, s =>
      ((body caps s).filter (fun pr => pr.2.length < s.length)).flatMap
        (fun pr => pr :: lazyPlusG body fuel pr.1 pr.2)

/-- All ways to match `r` against a front segment of `s`, in JavaScript
backtracking priority order, each with its capture environment and the
remaining input. -/
def runRe (fuel : Nat) : Re → Caps → List Char → List (Caps × List Char)
  | .eps, caps, s => [(caps, s)]
  | .chr c, caps, s =>
      match s with
      | [] => []
      | x :: rest => if x = c then [(caps, rest)] else []
  | .cls p, caps, s =>
      match s with
      | [] => []
      | x :: rest => if p x then [(caps, rest)] else []
  | .seq a b, caps, s =>
      (runRe fuel a caps s).flatMap (fun pr => runRe fuel b pr.1 pr.2)
  | .alt a b, caps, s => runRe fuel a caps s ++ runRe fuel b caps s
  | .grp n r, caps, s =>
      (runRe fuel r caps s).map
        (fun pr => ((n, s.take (s.length - pr.2.length)) :: pr.1, pr.2))
  | .opt r, caps, s => runRe fuel r caps s ++ [(caps, s)]
  | .star r, caps, s => starG (runRe fuel r) fuel caps s
  | .plus r, caps, s => plusG (runRe fuel r) fuel caps s
  | .lazyPlus r, caps, s => lazyPlusG (runRe fuel r) fuel caps s

/-- Search as in `String.prototype.match` without anchors: try each start position from
the left; at the first position where the pattern matches, return the
captures of the highest-priority match. -/
def searchRe (fuel : Nat) (r : Re) : List Char → Option Caps
  | [] =>
      match (runRe fuel r [] []).head? with
      | some pr => some pr.1
      | none => none
  | c :: rest =>
      match (runRe fuel r [] (c :: rest)).head? with
      | some pr => some pr.1
      | none => searchRe fuel r rest

/-- Group access `matches[n]`: captured text of group `n`, absent when the group did
not participate in the match. -/
def capStr (caps : Caps) (n : Nat) : Option String :=
  (caps.lookup n).map String.mk

/-- Sequence a list of regexes. -/
def rseq (l : List Re) : Re := l.foldr .seq .eps

/-- A literal string. -/
def lit (s : String) : Re := rseq (s.data.map .chr)

/-- Alternation of a list, earlier alternatives preferred. -/
def altL : List Re → Re
  | [] => .cls (fun _ => false)
  | [r] => r
  | r :: rs => .alt r (altL rs)

/-! ## String helpers mirroring the JavaScript primitives used -/

/-- Class `\s` (the whitespace characters producible by the transcription layer;
JavaScript's class also covers further Unicode spaces). -/
def isWsChar (c : Char) : Bool := c = ' ' || c = '\t' || c = '\n' || c = '\r'

/-- Class `.` — any character except a line terminator. -/
def isDotChar (c : Char) : Bool := !(c = '\n' || c = '\r')

/-- Trim as in `String.prototype.trim`. -/
def jsTrim (s : String) : String :=
  String.mk (((s.data.dropWhile isWsChar).reverse.dropWhile isWsChar).reverse)

/-- Lower-casing as in `String.prototype.toLowerCase` (ASCII range; the accented characters in
the supported locales are already lower-case). -/
def jsToLower (s : String) : String := String.mk (s.data.map Char.toLower)

/-- Replacement as in `String.prototype.replace(pat, repl)` with a string pattern: replaces
the first occurrence only. -/
def replaceFirstAux (pat repl : List Char) : List Char → List Char
  | [] => []
  | c :: rest =>
      if (c :: rest).take pat.length = pat then repl ++ (c :: rest).drop pat.length
      else c :: replaceFirstAux pat repl rest

/-- Replacement as in `String.prototype.replace` with string arguments (first occurrence). -/
def jsReplace (s pat repl : String) : String :=
  String.mk (replaceFirstAux pat.data repl.data s.data)

/-- Value of a digit string (`'0'`–`'9'` characters only). -/
def digitsToNat (l : List Char) : Nat :=
  l.foldl (fun acc c => acc * 10 + (c.toNat - 48)) 0

/-- Parsing as in `parseInt(s, 10)` on the digit-only strings captured by `(\d+)`. -/
def jsParseInt (s : String) : ℚ := (digitsToNat s.data : ℚ)

/-- Parsing as in `parseFloat` on strings of the shape `\d+(\.\d+)?` captured by the
patterns (after the comma→dot replacement). -/
def jsParseFloat (s : String) : ℚ :=
  let l := s.data
  let intPart := l.takeWhile (fun c => c.isDigit)
  let rest := l.drop intPart.length
  match rest with
  | '.' :: fracRest =>
      let frac := fracRest.takeWhile (fun c => c.isDigit)
      (digitsToNat intPart : ℚ) + (digitsToNat frac : ℚ) / (10 : ℚ) ^ frac.length
  | _ => (digitsToNat intPart : ℚ)

/-! ## Structured commands (`src/types/voice.types.ts`) -/

/-- Command kinds: `VoiceCommandType`. -/
inductive VoiceCommandType where
  | add_item
  | update_customer
  | set_tax
  | remove_item
  | update_item
  | set_date
  | set_due_date
  | set_invoice_number
  | set_notes
  | show_preview
  | generate_pdf
  | unknown
deriving DecidableEq, Repr

/-- A value of the loosely-typed payload map (`string | number`). -/
inductive PValue where
  | s (v : String)
  | n (v : ℚ)
deriving DecidableEq, Repr

/-- Payload map `Record<string, string | number>` in insertion order. -/
abbrev Payload := List (String × PValue)

/-- Structured command: `VoiceCommand`. -/
structure VoiceCommand where
  type : VoiceCommandType
  payload : Payload
  rawText : String
  confidence : ℚ
deriving DecidableEq, Repr

/-! ## The pattern rule table (`src/utils/voiceParser.ts`, `commandPatterns`)

Each entry is transcribed from the corresponding JavaScript regex literal.
The `i` flag is irrelevant because the matched text has already been
lower-cased by the normalizer and every pattern is lower-case. -/

/-- One entry of `commandPatterns`. -/
structure CommandPattern where
  pattern : Re
  type : VoiceCommandType
  extractPayload : Caps → Payload

/-- Pattern `\s+`. -/
def wsP : Re := .plus (.cls isWsChar)

/-- Pattern `\s*`. -/
def wsS : Re := .star (.cls isWsChar)

/-- Pattern `\d`. -/
def d1 : Re := .cls Char.isDigit

/-- Pattern `.` -/
def dotC : Re := .cls isDotChar

/-- Pattern `[.,]`. -/
def sepDotComma : Re := .cls (fun c => c = '.' || c = ',')

/-- Pattern `\d+(?:[.,]\d{1,2})?` — a price with an optional 1–2 digit decimal part. -/
def num12 : Re := rseq [.plus d1, .opt (rseq [sepDotComma, d1, .opt d1])]

/-- Pattern `\d+(?:[.,]\d+)?` — a number with an optional decimal part. -/
def numAny : Re := rseq [.plus d1, .opt (rseq [sepDotComma, .plus d1])]

/-- Pattern `(?:add|añadir|agregar|a[ñn]ade)`. -/
def addVerb : Re :=
  altL [lit "add", lit "añadir", lit "agregar",
        rseq [.chr 'a', .cls (fun c => c = 'ñ' || c = 'n'), lit "ade"]]

/-- Rule 1: `(?:add|añadir|agregar|a[ñn]ade)\s+(?:(\d+)\s+)?(?:units?\s+of\s+|unidades?\s+de\s+)?(.+?)\s+(?:at|a)\s+\$?(\d+(?:[.,]\d{1,2})?)`. -/
def reAddItemFull : Re := rseq [
  addVerb, wsP,
  .opt (rseq [.grp 1 (.plus d1), wsP]),
  .opt (altL [rseq [lit "unit", .opt (.chr 's'), wsP, lit "of", wsP],
              rseq [lit "unidade", .opt (.chr 's'), wsP, lit "de", wsP]]),
  .grp 2 (.lazyPlus dotC), wsP,
  altL [lit "at", lit "a"], wsP,
  .opt (.chr '$'),
  .grp 3 num12]

/-- Rule 2: `(?:add|añadir|agregar|a[ñn]ade)\s+(.+?)\s+(\d+(?:[.,]\d{1,2})?)`. -/
def reAddItemSimple : Re := rseq [
  addVerb, wsP,
  .grp 1 (.lazyPlus dotC), wsP,
  .grp 2 num12]

/-- Rule 3: `(?:customer|cliente)(?:\s+name|\s+nombre)?\s+(?:is|es)\s+(.+)`. -/
def reCustomerName : Re := rseq [
  altL [lit "customer", lit "cliente"],
  .opt (altL [rseq [wsP, lit "name"], rseq [wsP, lit "nombre"]]),
  wsP, altL [lit "is", lit "es"], wsP,
  .grp 1 (.plus dotC)]

/-- Rule 4: `(?:customer\s+)?(?:address|direcci[oó]n)\s+(?:is|es)\s+(.+)`. -/
def reCustomerAddress : Re := rseq [
  .opt (rseq [lit "customer", wsP]),
  altL [lit "address",
        rseq [lit "direcci", .cls (fun c => c = 'o' || c = 'ó'), .chr 'n']],
  wsP, altL [lit "is", lit "es"], wsP,
  .grp 1 (.plus dotC)]

/-- Rule 5: `(?:set\s+)?(?:tax|impuesto|iva)(?:\s+rate|\s+tasa)?\s+(?:to|a)?\s*(\d+(?:[.,]\d+)?)\s*(?:%|percent|por\s*ciento)?`. -/
def reSetTax : Re := rseq [
  .opt (rseq [lit "set", wsP]),
  altL [lit "tax", lit "impuesto", lit "iva"],
  .opt (altL [rseq [wsP, lit "rate"], rseq [wsP, lit "tasa"]]),
  wsP,
  .opt (altL [lit "to", lit "a"]),
  wsS,
  .grp 1 numAny,
  wsS,
  .opt (altL [.chr '%', lit "percent", rseq [lit "por", wsS, lit "ciento"]])]

/-- Rule 6: `(?:delete|remove|eliminar|borrar)\s+(?:item|art[ií]culo|elemento)?\s*(\d+|last|[uú]ltimo)`. -/
def reRemoveItem : Re := rseq [
  altL [lit "delete", lit "remove", lit "eliminar", lit "borrar"],
  wsP,
  .opt (altL [lit "item",
              rseq [lit "art", .cls (fun c => c = 'i' || c = 'í'), lit "culo"],
              lit "elemento"]),
  wsS,
  .grp 1 (altL [.plus d1, lit "last",
                rseq [.cls (fun c => c = 'u' || c = 'ú'), lit "ltimo"]])]

/-- Rule 7: `(?:invoice|factura)\s+(?:number|n[uú]mero)\s+(?:is\s+|es\s+)?(.+)`. -/
def reInvoiceNumber : Re := rseq [
  altL [lit "invoice", lit "factura"], wsP,
  altL [lit "number",
        rseq [.chr 'n', .cls (fun c => c = 'u' || c = 'ú'), lit "mero"]],
  wsP,
  .opt (altL [rseq [lit "is", wsP], rseq [lit "es", wsP]]),
  .grp 1 (.plus dotC)]

/-- Rule 8: `(?:add|set|añadir|agregar)\s+(?:note|nota)(?:s|tas)?\s+(?:to\s+)?(.+)`. -/
def reSetNotes : Re := rseq [
  altL [lit "add", lit "set", lit "añadir", lit "agregar"], wsP,
  altL [lit "note", lit "nota"],
  .opt (altL [.chr 's', lit "tas"]),
  wsP,
  .opt (rseq [lit "to", wsP]),
  .grp 1 (.plus dotC)]

/-- Rule 9: `(?:show|mostrar)\s+(?:preview|vista\s+previa|previsualizaci[oó]n)`. -/
def reShowPreview : Re := rseq [
  altL [lit "show", lit "mostrar"], wsP,
  altL [lit "preview",
        rseq [lit "vista", wsP, lit "previa"],
        rseq [lit "previsualizaci", .cls (fun c => c = 'o' || c = 'ó'), .chr 'n']]]

/-- Rule 10: `(?:generate|generar|crear)\s+pdf`. -/
def reGeneratePdf : Re :=
  rseq [altL [lit "generate", lit "generar", lit "crear"], wsP, lit "pdf"]

/-- JavaScript truthiness of `matches[n]` (absent or empty is falsy). -/
def capTruthy : Option String → Bool
  | some s => s ≠ ""
  | none => false

/-- Extractor of rule 1: quantity (default 1), description, unitPrice. -/
def extractAddItemFull (caps : Caps) : Payload :=
  let m1 := capStr caps 1
  let m2 := (capStr caps 2).getD ""
  let m3 := (capStr caps 3).getD ""
  [("quantity", .n (if capTruthy m1 then jsParseInt (m1.getD "") else 1)),
   ("description", .s (jsTrim m2)),
   ("unitPrice", .n (jsParseFloat (jsReplace m3 "," ".")))]

/-- Extractor of rule 2: quantity 1, description, unitPrice. -/
def extractAddItemSimple (caps : Caps) : Payload :=
  let m1 := (capStr caps 1).getD ""
  let m2 := (capStr caps 2).getD ""
  [("quantity", .n 1),
   ("description", .s (jsTrim m1)),
   ("unitPrice", .n (jsParseFloat (jsReplace m2 "," ".")))]

/-- Extractor of rule 3: customer name; the address field is set to `""`. -/
def extractCustomerName (caps : Caps) : Payload :=
  let m1 := (capStr caps 1).getD ""
  [("customerName", .s (jsTrim m1)),
   ("customerAddress", .s "")]

/-- Extractor of rule 4: customer address; the name field is set to `""`. -/
def extractCustomerAddress (caps : Caps) : Payload :=
  let m1 := (capStr caps 1).getD ""
  [("customerName", .s ""),
   ("customerAddress", .s (jsTrim m1))]

/-- Extractor of rule 5: `parseFloat(matches[1].replace(',', '.')) / 100`. -/
def extractSetTax (caps : Caps) : Payload :=
  let m1 := (capStr caps 1).getD ""
  [("taxRate", .n (jsParseFloat (jsReplace m1 "," ".") / 100))]

/-- Extractor of rule 6:
`matches[1].toLowerCase().replace('último', 'last').replace('ultimo', 'last')`. -/
def extractRemoveItem (caps : Caps) : Payload :=
  let m1 := (capStr caps 1).getD ""
  [("itemId", .s (jsReplace (jsReplace (jsToLower m1) "último" "last") "ultimo" "last"))]

/-- Extractor of rule 7: invoice number. -/
def extractInvoiceNumber (caps : Caps) : Payload :=
  let m1 := (capStr caps 1).getD ""
  [("invoiceNumber", .s (jsTrim m1))]

/-- Extractor of rule 8: notes. -/
def extractSetNotes (caps : Caps) : Payload :=
  let m1 := (capStr caps 1).getD ""
  [("notes", .s (jsTrim m1))]

/-- Extractor of rules 9 and 10: empty payload. -/
def extractEmpty (_ : Caps) : Payload := []

/-- The ordered rule table `commandPatterns`. -/
def commandPatterns : List CommandPattern := [
  ⟨reAddItemFull, .add_item, extractAddItemFull⟩,
  ⟨reAddItemSimple, .add_item, extractAddItemSimple⟩,
  ⟨reCustomerName, .update_customer, extractCustomerName⟩,
  ⟨reCustomerAddress, .update_customer, extractCustomerAddress⟩,
  ⟨reSetTax, .set_tax, extractSetTax⟩,
  ⟨reRemoveItem, .remove_item, extractRemoveItem⟩,
  ⟨reInvoiceNumber, .set_invoice_number, extractInvoiceNumber⟩,
  ⟨reSetNotes, .set_notes, extractSetNotes⟩,
  ⟨reShowPreview, .show_preview, extractEmpty⟩,
  ⟨reGeneratePdf, .generate_pdf, extractEmpty⟩]

/-! ## The matcher (`parseVoiceCommand`) -/

/-- Normalization `transcript.trim().toLowerCase()`. -/
def normalizeText (s : String) : String := jsToLower (jsTrim s)

/-- Matching `normalizedText.match(pattern)` restricted to its capture groups.
The fuel exceeds the input length, so every loop in the patterns (whose
bodies all consume a character) runs unrestricted. -/
def matchPattern (p : CommandPattern) (norm : List Char) : Option Caps :=
  searchRe (norm.length + 1) p.pattern norm

/-- First rule of the table (in order) that matches, with its extracted
payload. -/
def findCommand : List CommandPattern → List Char → Option (VoiceCommandType × Payload)
  | [], _ => none
  | p :: ps, norm =>
      match matchPattern p norm with
      | some caps => some (p.type, p.extractPayload caps)
      | none => findCommand ps norm

/-- The matcher `parseVoiceCommand` from `voiceParser.ts` (the console tracing has no
behavioural content). -/
def parseVoiceCommand (transcript : String) : VoiceCommand :=
  let normalizedText := normalizeText transcript
  match findCommand commandPatterns normalizedText.data with
  | some (t, payload) =>
      { type := t, payload := payload, rawText := transcript, confidence := 9 / 10 }
  | none =>
      { type := .unknown, payload := [], rawText := transcript, confidence := 0 }

/-! ## Command-to-mutation translator (`src/hooks/useVoiceCommands.ts`) -/

/-- Payload access `command.payload.key`. -/
def pget (p : Payload) (key : String) : Option PValue := p.lookup key

/-- JavaScript truthiness of a payload access (`undefined`, `0` and `""`
are falsy). -/
def jsTruthyV : Option PValue → Bool
  | some (.s v) => v ≠ ""
  | some (.n v) => v ≠ 0
  | none => false

/-- Decimal rendering used by the JavaScript `String(number)` coercion.
Matcher payloads store strings under every key this is applied to, so
only the integer rendering is ever exercised. -/
def ratToJsString (q : ℚ) : String :=
  if q.den = 1 then
    (if q.num < 0 then "-" ++ toString q.num.natAbs else toString q.num.natAbs)
  else toString q.num.natAbs ++ "/" ++ toString q.den

/-- Coercion `String(x)`. -/
def jsStringOf : PValue → String
  | .s v => v
  | .n v => ratToJsString v

/-- Coercion `Number(x)`.  Payload values reaching numeric fields are always
numbers, so the string case (where `Number` and `parseFloat` differ on
edge cases) is not exercised. -/
def jsNumberOf : PValue → ℚ
  | .n v => v
  | .s v => jsParseFloat v

/-- Coercion `String(payload.key || dflt)` for a string default. -/
def jsOrString (x : Option PValue) (dflt : String) : String :=
  if jsTruthyV x then
    match x with
    | some v => jsStringOf v
    | none => dflt
  else dflt

/-- Coercion `Number(payload.key || dflt)` for a numeric default. -/
def jsOrNumber (x : Option PValue) (dflt : ℚ) : ℚ :=
  if jsTruthyV x then
    match x with
    | some v => jsNumberOf v
    | none => dflt
  else dflt

/-- Modelled from the spec: JavaScript `Date` parsing is outside this
core (`new Date(string)` in the dead `set_date`/`set_due_date` branches;
no matcher rule emits a date payload, so the pipeline never reaches it). -/
def jsDateParse (_ : String) : Int := 0

/-- The translator `commandToAction` from `useVoiceCommands.ts`. -/
def commandToAction (command : VoiceCommand) : Option InvoiceAction :=
  match command.type with
  | .add_item =>
      some (.ADD_ITEM
        { description := jsOrString (pget command.payload "description") ""
          quantity := jsOrNumber (pget command.payload "quantity") 1
          unitPrice := jsOrNumber (pget command.payload "unitPrice") 0 })
  | .update_customer =>
      some (.SET_CUSTOMER
        { customerName := jsOrString (pget command.payload "customerName") ""
          customerAddress := jsOrString (pget command.payload "customerAddress") "" })
  | .set_tax =>
      some (.SET_TAX_RATE (jsOrNumber (pget command.payload "taxRate") 0))
  | .remove_item =>
      some (.REMOVE_ITEM (jsOrString (pget command.payload "itemId") ""))
  | .set_date =>
      match pget command.payload "date" with
      | some v => if jsTruthyV (some v) then some (.SET_DATE (jsDateParse (jsStringOf v))) else none
      | none => none
  | .set_due_date =>
      match pget command.payload "dueDate" with
      | some v =>
          if jsTruthyV (some v) then some (.SET_DUE_DATE (jsDateParse (jsStringOf v))) else none
      | none => none
  | .set_invoice_number =>
      some (.SET_INVOICE_NUMBER (jsOrString (pget command.payload "invoiceNumber") ""))
  | .set_notes =>
      some (.SET_NOTES (jsOrString (pget command.payload "notes") ""))
  | .show_preview => none
  | .generate_pdf => none
  | .unknown => none
  | .update_item => none

/-- The guard `processTranscript` from `useVoiceCommands.ts`. -/
def processTranscript (transcript : String) : Option VoiceCommand :=
  if jsTrim transcript = "" then none else some (parseVoiceCommand transcript)

/-! ## Pipeline orchestrator (the transcript effect in `App.tsx`) -/

/-- One finalized transcript through the pipeline:
normalize → match → translate → reduce. -/
def runUtterance (now : Int) (freshId : String)
    (state : InvoiceData) (transcript : String) : InvoiceData :=
  match processTranscript transcript with
  | none => state
  | some command =>
      match commandToAction command with
      | some action => invoiceReducer now freshId state action
      | none => state

/-- A sequence of finalized transcripts, each paired with the UUID the
reducer would generate for it, applied in arrival order. -/
def runUtterances (now : Int) (state : InvoiceData) :
    List (String × String) → InvoiceData
  | [] => state
  | (freshId, t) :: rest => runUtterances now (runUtterance now freshId state t) rest

/-- A sequence of mutation requests, each paired with its fresh UUID,
applied in order. -/
def applyActions (now : Int) (state : InvoiceData) :
    List (String × InvoiceAction) → InvoiceData
  | [] => state
  | (freshId, a) :: rest => applyActions now (invoiceReducer now freshId state a) rest

/-! ## Helper lemmas -/

/-- A map by a function that fixes every member is the identity. -/
theorem map_id_of_mem {α : Type} (f : α → α) :
    ∀ l : List α, (∀ a ∈ l, f a = a) → l.map f = l := by
  intro l
  induction l with
  | nil => intro _; rfl
  | cons x xs ih =>
      intro h
      have hx : f x = x := h x (by simp)
      have hxs : xs.map f = xs := ih (fun a ha => h a (by simp [ha]))
      simp [hx, hxs]

/-- The initial aggregate satisfies the invariants. -/
theorem initial_invariant (now : Int) : InvoiceInvariant (initialInvoiceState now) := by
  refine ⟨rfl, by simp [initialInvoiceState], by simp [initialInvoiceState], ?_⟩
  intro item h
  simp [initialInvoiceState] at h

/-- An utterance the translator maps to no action leaves the aggregate
untouched. -/
theorem runUtterance_unmatched (now : Int) (freshId : String) (s : InvoiceData)
    (t : String) (h : commandToAction (parseVoiceCommand t) = none) :
    runUtterance now freshId s t = s := by
  unfold runUtterance processTranscript
  by_cases ht : jsTrim t = ""
  · simp [ht]
  · simp [ht, h]

/-- An utterance the translator maps to an action is handed to the
reducer. -/
theorem runUtterance_matched (now : Int) (freshId : String) (s : InvoiceData)
    (t : String) (a : InvoiceAction) (ht : jsTrim t ≠ "")
    (h : commandToAction (parseVoiceCommand t) = some a) :
    runUtterance now freshId s t = invoiceReducer now freshId s a := by
  unfold runUtterance processTranscript
  simp [ht, h]

/-! ## Claim theorems -/

/-- C1: every branch of the reducer preserves the arithmetic invariants
(subtotal = Σ item.total, tax = subtotal·taxRate, total = subtotal + tax,
item.total = quantity·unitPrice), hence they hold after any sequence of
mutations starting from the initial state. -/
theorem c1_reducer_preserves_invariants :
    (∀ now freshId state action, InvoiceInvariant state →
        InvoiceInvariant (invoiceReducer now freshId state action)) ∧
    (∀ now steps, InvoiceInvariant (applyActions now (initialInvoiceState now) steps)) := by
  have hstep : ∀ now freshId state action, InvoiceInvariant state →
      InvoiceInvariant (invoiceReducer now freshId state action) := by
    intro now freshId s a hInv
    obtain ⟨h1, h2, h3, h4⟩ := hInv
    cases a with
    | ADD_ITEM p =>
        refine ⟨rfl, rfl, rfl, ?_⟩
        intro item hmem
        simp only [invoiceReducer, List.mem_append, List.mem_singleton] at hmem
        rcases hmem with hmem | rfl
        · exact h4 item hmem
        · rfl
    | REMOVE_ITEM p =>
        refine ⟨rfl, rfl, rfl, ?_⟩
        intro item hmem
        simp only [invoiceReducer] at hmem
        exact h4 item (List.mem_of_mem_filter hmem)
    | UPDATE_ITEM p =>
        refine ⟨rfl, rfl, rfl, ?_⟩
        intro item hmem
        simp only [invoiceReducer, List.mem_map] at hmem
        obtain ⟨x, hx, rfl⟩ := hmem
        by_cases hid : x.id = p.id
        · simp [hid]
        · simp only [hid, if_false]
          exact h4 x hx
    | SET_CUSTOMER p => exact ⟨h1, h2, h3, h4⟩
    | SET_TAX_RATE p => exact ⟨h1, rfl, rfl, h4⟩
    | SET_INVOICE_NUMBER p => exact ⟨h1, h2, h3, h4⟩
    | SET_DATE p => exact ⟨h1, h2, h3, h4⟩
    | SET_DUE_DATE p => exact ⟨h1, h2, h3, h4⟩
    | SET_NOTES p => exact ⟨h1, h2, h3, h4⟩
    | RESET_INVOICE => exact initial_invariant now
  have hseq : ∀ now steps state, InvoiceInvariant state →
      InvoiceInvariant (applyActions now state steps) := by
    intro now steps
    induction steps with
    | nil => intro state h; exact h
    | cons hd tl ih =>
        intro state h
        exact ih _ (hstep now hd.1 state hd.2 h)
  exact ⟨hstep, fun now steps => hseq now steps _ (initial_invariant now)⟩

/-- Witness for C1 at a concrete aggregate and mutation. -/
theorem c1_reducer_preserves_invariants_witness :
    InvoiceInvariant (invoiceReducer 0 "3fa85f64-5717-4562-b3fc-2c963f66afa6"
      (initialInvoiceState 0)
      (.ADD_ITEM { description := "paint", quantity := 5, unitPrice := 20 })) :=
  c1_reducer_preserves_invariants.1 0 "3fa85f64-5717-4562-b3fc-2c963f66afa6"
    (initialInvoiceState 0) _ (by with_unfolding_all decide)

/-- C2: evaluating the code on the failing input — the pipeline on
"add 5 units of paint at 20 each" followed by "remove last item" keeps
the added item (the `REMOVE_ITEM` branch filters by exact item id, so the
"last" sentinel produced by the matcher removes nothing), where the claim
and the repository's own documentation demand zero items remain. -/
theorem c2_remove_last_is_noop_in_code :
    ((runUtterances 0 (initialInvoiceState 0)
        [("3fa85f64-5717-4562-b3fc-2c963f66afa6", "add 5 units of paint at 20 each"),
         ("9b2c1d4e-8f3a-4b5c-9d6e-7f8a9b0c1d2e", "remove last item")]).items.map
        InvoiceItem.id) =
      ["3fa85f64-5717-4562-b3fc-2c963f66afa6"] ∧
    commandToAction (parseVoiceCommand "remove last item") = some (.REMOVE_ITEM "last") := by
  constructor
  · with_unfolding_all rfl
  · with_unfolding_all rfl

/-- C3 counterexample: the reducer applies a negative tax rate and a
negative-quantity item instead of returning the aggregate unchanged. -/
theorem c3_counterexample :
    (invoiceReducer 0 "3fa85f64-5717-4562-b3fc-2c963f66afa6" (initialInvoiceState 0)
        (.SET_TAX_RATE (-(1 / 20)))).taxRate ≠ (initialInvoiceState 0).taxRate ∧
    (invoiceReducer 0 "3fa85f64-5717-4562-b3fc-2c963f66afa6" (initialInvoiceState 0)
        (.ADD_ITEM { description := "x", quantity := -1, unitPrice := 5 })).items ≠
      (initialInvoiceState 0).items := by
  constructor
  · with_unfolding_all decide
  · with_unfolding_all decide

/-- C3 (amended): the state engine performs no semantic validation —
an add-item mutation appends an item with exactly the given quantity and
unit price (negative or not), an update-item mutation whose id is present
replaces that item with exactly the given quantity and unit price, and a
set-tax-rate mutation installs exactly the given rate, recomputing tax
from the existing subtotal; nothing is rejected. -/
theorem c3_negative_values_applied (now : Int) (freshId : String) (s : InvoiceData)
    (d : String) (q u r : ℚ) (p : InvoiceItem) :
    (invoiceReducer now freshId s (.ADD_ITEM { description := d, quantity := q, unitPrice := u })).items =
      s.items ++ [{ id := freshId, description := d, quantity := q, unitPrice := u, total := q * u }] ∧
    (invoiceReducer now freshId s (.SET_TAX_RATE r)).taxRate = r ∧
    (invoiceReducer now freshId s (.SET_TAX_RATE r)).tax = s.subtotal * r ∧
    ((∃ item ∈ s.items, item.id = p.id) →
      { p with total := p.quantity * p.unitPrice } ∈
        (invoiceReducer now freshId s (.UPDATE_ITEM p)).items) := by
  refine ⟨rfl, rfl, rfl, ?_⟩
  rintro ⟨item, hmem, hid⟩
  show { p with total := p.quantity * p.unitPrice } ∈
    s.items.map (fun it =>
      if it.id = p.id then { p with total := p.quantity * p.unitPrice } else it)
  exact List.mem_map.mpr ⟨item, hmem, by simp [hid]⟩

/-- Witness for C3's amended theorem: an update-item carrying negative
quantity and unit price is applied verbatim to a matching item. -/
theorem c3_negative_values_applied_witness :
    ({ id := "a", description := "w", quantity := -2, unitPrice := -3, total := 6 } : InvoiceItem) ∈
      (invoiceReducer 0 "f-2"
        { invoiceNumber := "", date := 0, dueDate := 0, customerName := "", customerAddress := "",
          items := [{ id := "a", description := "w", quantity := 2, unitPrice := 3, total := 6 }],
          subtotal := 6, tax := 0, taxRate := 0, total := 6, notes := "" }
        (.UPDATE_ITEM
          { id := "a", description := "w", quantity := -2, unitPrice := -3, total := 0 })).items := by
  with_unfolding_all
    exact (c3_negative_values_applied 0 "f-2"
      { invoiceNumber := "", date := 0, dueDate := 0, customerName := "", customerAddress := "",
        items := [{ id := "a", description := "w", quantity := 2, unitPrice := 3, total := 6 }],
        subtotal := 6, tax := 0, taxRate := 0, total := 6, notes := "" }
      "x" (-1) 5 (-(1 / 20))
      { id := "a", description := "w", quantity := -2, unitPrice := -3, total := 0 }).2.2.2
      ⟨{ id := "a", description := "w", quantity := 2, unitPrice := 3, total := 6 },
        List.mem_singleton.mpr rfl, rfl⟩

/-- C5: the specific add-item rule wins — "add 5 units of paint at 20
each" extracts quantity 5, description "paint", unit price 20, with the
first rule of the table matching. -/
theorem c5_rule_precedence :
    parseVoiceCommand "add 5 units of paint at 20 each" =
      { type := .add_item,
        payload := [("quantity", .n 5), ("description", .s "paint"), ("unitPrice", .n 20)],
        rawText := "add 5 units of paint at 20 each", confidence := 9 / 10 } ∧
    (matchPattern { pattern := reAddItemFull, type := .add_item, extractPayload := extractAddItemFull }
        (normalizeText "add 5 units of paint at 20 each").data).isSome = true := by
  constructor
  · with_unfolding_all rfl
  · with_unfolding_all rfl

/-- C6: a remove or update mutation whose id matches no item returns the
aggregate unchanged in every field (given the arithmetic invariants). -/
theorem c6_missing_target_noop (now : Int) (freshId : String) (s : InvoiceData)
    (hInv : InvoiceInvariant s) (targetId : String)
    (hR : ∀ item ∈ s.items, item.id ≠ targetId)
    (p : InvoiceItem) (hU : ∀ item ∈ s.items, item.id ≠ p.id) :
    invoiceReducer now freshId s (.REMOVE_ITEM targetId) = s ∧
    invoiceReducer now freshId s (.UPDATE_ITEM p) = s := by
  obtain ⟨h1, h2, h3, _⟩ := hInv
  have hfil : s.items.filter (fun item => item.id != targetId) = s.items := by
    rw [List.filter_eq_self]
    intro a ha
    simpa [bne_iff_ne] using hR a ha
  have hmap : s.items.map (fun item =>
      if item.id = p.id then { p with total := p.quantity * p.unitPrice } else item) = s.items := by
    apply map_id_of_mem
    intro a ha
    simp [hU a ha]
  constructor
  · show ({ s with
        items := s.items.filter (fun item => item.id != targetId),
        subtotal := sumTotals (s.items.filter (fun item => item.id != targetId)),
        tax := sumTotals (s.items.filter (fun item => item.id != targetId)) * s.taxRate,
        total := sumTotals (s.items.filter (fun item => item.id != targetId)) +
          sumTotals (s.items.filter (fun item => item.id != targetId)) * s.taxRate } : InvoiceData) = s
    rw [hfil, ← h1, ← h2, ← h3]
  · show ({ s with
        items := s.items.map (fun item =>
          if item.id = p.id then { p with total := p.quantity * p.unitPrice } else item),
        subtotal := sumTotals (s.items.map (fun item =>
          if item.id = p.id then { p with total := p.quantity * p.unitPrice } else item)),
        tax := sumTotals (s.items.map (fun item =>
          if item.id = p.id then { p with total := p.quantity * p.unitPrice } else item)) * s.taxRate,
        total := sumTotals (s.items.map (fun item =>
          if item.id = p.id then { p with total := p.quantity * p.unitPrice } else item)) +
          sumTotals (s.items.map (fun item =>
            if item.id = p.id then { p with total := p.quantity * p.unitPrice } else item)) * s.taxRate } :
      InvoiceData) = s
    rw [hmap, ← h1, ← h2, ← h3]

/-- Witness for C6 at a concrete one-item aggregate and a missing id. -/
theorem c6_missing_target_noop_witness :
    invoiceReducer 0 "f-1"
        { invoiceNumber := "", date := 0, dueDate := 0, customerName := "", customerAddress := "",
          items := [{ id := "a", description := "w", quantity := 2, unitPrice := 3, total := 6 }],
          subtotal := 6, tax := 3, taxRate := 1 / 2, total := 9, notes := "" }
        (.REMOVE_ITEM "b") =
      { invoiceNumber := "", date := 0, dueDate := 0, customerName := "", customerAddress := "",
        items := [{ id := "a", description := "w", quantity := 2, unitPrice := 3, total := 6 }],
        subtotal := 6, tax := 3, taxRate := 1 / 2, total := 9, notes := "" } ∧
    invoiceReducer 0 "f-1"
        { invoiceNumber := "", date := 0, dueDate := 0, customerName := "", customerAddress := "",
          items := [{ id := "a", description := "w", quantity := 2, unitPrice := 3, total := 6 }],
          subtotal := 6, tax := 3, taxRate := 1 / 2, total := 9, notes := "" }
        (.UPDATE_ITEM { id := "b", description := "x", quantity := 1, unitPrice := 1, total := 1 }) =
      { invoiceNumber := "", date := 0, dueDate := 0, customerName := "", customerAddress := "",
        items := [{ id := "a", description := "w", quantity := 2, unitPrice := 3, total := 6 }],
        subtotal := 6, tax := 3, taxRate := 1 / 2, total := 9, notes := "" } :=
  c6_missing_target_noop 0 "f-1" _ (by with_unfolding_all decide) "b"
    (by with_unfolding_all decide) _ (by with_unfolding_all decide)

/-- C7 counterexample: for "set tax to 10" the payload does not carry the
whole-number percent 10 — the matcher's extractor already divided by 100. -/
theorem c7_counterexample :
    pget (parseVoiceCommand "set tax to 10").payload "taxRate" ≠ some (.n 10) := by
  with_unfolding_all decide

/-- C7 (amended): the set-tax payload carries the fractional rate (the
matcher's extractor divides the spoken percent by 100), and the
translator passes the value through unchanged. -/
theorem c7_tax_fraction_in_payload :
    (parseVoiceCommand "set tax to 10").payload = [("taxRate", .n (1 / 10))] ∧
    commandToAction (parseVoiceCommand "set tax to 10") = some (.SET_TAX_RATE (1 / 10)) ∧
    ∀ q : ℚ, commandToAction
        { type := .set_tax, payload := [("taxRate", .n q)], rawText := "", confidence := 9 / 10 } =
      some (.SET_TAX_RATE q) := by
  refine ⟨by with_unfolding_all rfl, by with_unfolding_all rfl, ?_⟩
  intro q
  by_cases hq : q = 0
  · subst hq; with_unfolding_all rfl
  · simp [commandToAction, pget, jsOrNumber, jsTruthyV, jsNumberOf, List.lookup, hq]

/-- C8: the full pipeline on "set tax to -5" leaves the aggregate (in
particular its taxRate) unchanged, for every starting aggregate — no
pattern matches a negative number, so the utterance is unrecognized. -/
theorem c8_negative_tax_utterance_noop (now : Int) (freshId : String) (s : InvoiceData) :
    runUtterance now freshId s "set tax to -5" = s ∧
    (runUtterance now freshId s "set tax to -5").taxRate = s.taxRate := by
  have h : commandToAction (parseVoiceCommand "set tax to -5") = none := by
    with_unfolding_all rfl
  have h2 := runUtterance_unmatched now freshId s _ h
  exact ⟨h2, by rw [h2]⟩

/-- C9: equivalent utterances of the two locales produce structurally
identical mutation requests — both remove-last phrasings yield
`REMOVE_ITEM "last"`, and both add phrasings yield an `ADD_ITEM` with
quantity 3 and unit price 40. -/
theorem c9_locale_equivalence :
    (commandToAction (parseVoiceCommand "remove last item") = some (.REMOVE_ITEM "last") ∧
     commandToAction (parseVoiceCommand "borrar último") = some (.REMOVE_ITEM "last")) ∧
    (commandToAction (parseVoiceCommand "add 3 chairs at 40") =
        some (.ADD_ITEM { description := "chairs", quantity := 3, unitPrice := 40 }) ∧
     commandToAction (parseVoiceCommand "añadir 3 sillas a 40") =
        some (.ADD_ITEM { description := "sillas", quantity := 3, unitPrice := 40 })) := by
  refine ⟨⟨?_, ?_⟩, ?_, ?_⟩
  · with_unfolding_all rfl
  · with_unfolding_all rfl
  · with_unfolding_all rfl
  · with_unfolding_all rfl

/-- C10: the customer-name rule always emits `customerAddress = ""` (and
the address rule emits `customerName = ""`), the reducer applies both
fields unconditionally, so a customer-name utterance overwrites any
stored address with the empty string. -/
theorem c10_customer_name_clears_address :
    (∀ caps : Caps, (extractCustomerName caps).lookup "customerAddress" = some (.s "")) ∧
    (∀ caps : Caps, (extractCustomerAddress caps).lookup "customerName" = some (.s "")) ∧
    (∀ (now : Int) (freshId : String) (s : InvoiceData) (nm ad : String),
        (invoiceReducer now freshId s
          (.SET_CUSTOMER { customerName := nm, customerAddress := ad })).customerName = nm ∧
        (invoiceReducer now freshId s
          (.SET_CUSTOMER { customerName := nm, customerAddress := ad })).customerAddress = ad) ∧
    (∀ (now : Int) (freshId : String) (s : InvoiceData),
        (runUtterance now freshId s "customer is john").customerAddress = "") := by
  refine ⟨fun caps => rfl, fun caps => rfl, fun now freshId s nm ad => ⟨rfl, rfl⟩, ?_⟩
  intro now freshId s
  have h : commandToAction (parseVoiceCommand "customer is john") =
      some (.SET_CUSTOMER { customerName := "john", customerAddress := "" }) := by
    with_unfolding_all rfl
  rw [runUtterance_matched now freshId s _ _ (by with_unfolding_all decide) h]
  rfl

/-- The first-match characterization of `findCommand` over any rule
table: either some rule matches, all earlier ones fail, and the result is
that rule's kind and extracted payload, or no rule matches and the result
is `none`. -/
theorem findCommand_first_match (ps : List CommandPattern) (norm : List Char) :
    (∃ i : Fin ps.length,
        (∀ j : Fin ps.length, (j : Nat) < (i : Nat) → matchPattern (ps.get j) norm = none) ∧
        ∃ caps, matchPattern (ps.get i) norm = some caps ∧
          findCommand ps norm = some ((ps.get i).type, (ps.get i).extractPayload caps))
    ∨ ((∀ i : Fin ps.length, matchPattern (ps.get i) norm = none) ∧
        findCommand ps norm = none) := by
  induction ps with
  | nil => exact Or.inr ⟨fun i => absurd i.2 (Nat.not_lt_zero _), rfl⟩
  | cons p ps ih =>
      cases hm : matchPattern p norm with
      | some caps =>
          refine Or.inl ⟨⟨0, Nat.succ_pos _⟩, ?_, caps, hm, ?_⟩
          · intro j hj
            exact absurd hj (Nat.not_lt_zero _)
          · simp only [findCommand, hm]
            rfl
      | none =>
          rcases ih with ⟨i, hbefore, caps, hc, he⟩ | ⟨hall, he⟩
          · refine Or.inl ⟨i.succ, ?_, caps, hc, ?_⟩
            · intro j hj
              rcases j with ⟨jv, hjlt⟩
              cases jv with
              | zero => exact hm
              | succ k =>
                  exact hbefore ⟨k, Nat.lt_of_succ_lt_succ hjlt⟩ (Nat.lt_of_succ_lt_succ hj)
            · simp only [findCommand, hm]
              exact he
          · refine Or.inr ⟨?_, ?_⟩
            · intro i
              rcases i with ⟨iv, hilt⟩
              cases iv with
              | zero => exact hm
              | succ k => exact hall ⟨k, Nat.lt_of_succ_lt_succ hilt⟩
            · simp only [findCommand, hm]
              exact he

/-- C4: the matcher is total — for every utterance it returns either the
first matching rule's kind and payload with confidence exactly 9/10, or
an unrecognized command with empty payload and confidence exactly 0; the
raw utterance is carried along unchanged in both cases. -/
theorem c4_matcher_total_first_match (transcript : String) :
    (parseVoiceCommand transcript).rawText = transcript ∧
    ((∃ i : Fin commandPatterns.length,
        (∀ j : Fin commandPatterns.length, (j : Nat) < (i : Nat) →
            matchPattern (commandPatterns.get j) (normalizeText transcript).data = none) ∧
        ∃ caps,
          matchPattern (commandPatterns.get i) (normalizeText transcript).data = some caps ∧
          parseVoiceCommand transcript =
            { type := (commandPatterns.get i).type,
              payload := (commandPatterns.get i).extractPayload caps,
              rawText := transcript, confidence := 9 / 10 })
     ∨ ((∀ i : Fin commandPatterns.length,
            matchPattern (commandPatterns.get i) (normalizeText transcript).data = none) ∧
        parseVoiceCommand transcript =
          { type := .unknown, payload := [], rawText := transcript, confidence := 0 })) := by
  have hparse : parseVoiceCommand transcript =
      (match findCommand commandPatterns (normalizeText transcript).data with
       | some (t, payload) =>
           { type := t, payload := payload, rawText := transcript, confidence := 9 / 10 }
       | none =>
           { type := .unknown, payload := [], rawText := transcript, confidence := 0 }) := rfl
  rcases findCommand_first_match commandPatterns (normalizeText transcript).data with
    ⟨i, hb, caps, hc, he⟩ | ⟨hall, he⟩
  · constructor
    · rw [hparse, he]
    · exact Or.inl ⟨i, hb, caps, hc, by rw [hparse, he]⟩
  · constructor
    · rw [hparse, he]
    · exact Or.inr ⟨hall, by rw [hparse, he]⟩

end InVoice
